import Mathlib

/-!
Shallow embedding of `src/models.py` from the Pytris starter repository:
the `Pytromino` piece model (blocks, color, type, rotation center, placed
flag), its transform engine (`rotate_block_90_cw`, shift generators,
`validated_apply`, `place_at`), the piece factory `pytromino_factory`,
and the single-slot `Holder`.

Coordinates are modelled as pairs of rationals: block coordinates are
integers, but rotation centers of the I and O pieces are half-integers,
and Python mixes the two freely.  All arithmetic the source performs on
half-integers is exact in binary floating point, so rationals are a
faithful model.
-/

namespace Pytris

/-- Coordinate pairs `(x, y)` as used throughout `models.py`. -/
abbrev Coord := ℚ × ℚ

/-- Modelled from the spec: the color palette (`colors.py`) is not under
`src/`; the spec (section 6) treats colors as opaque, immutable, comparable
tags resolved externally, so the seven palette entries the factory uses are
modelled as an enumeration. -/
inductive Color where
  | CYAN
  | YELLOW
  | ORANGE
  | GREEN
  | PURPLE
  | BLUE
  | RED
  deriving DecidableEq, Repr

/-- The closed enumeration `Pytromino.Types` from `models.py`. -/
inductive Types where
  | I
  | O
  | L
  | S
  | T
  | J
  | Z
  deriving DecidableEq, Repr

/-- State of a `Pytromino` object: fields `_blocks_pos`, `_color`, `_type`,
`_center_rot`, `_placed` of `models.py`. -/
structure Pytromino where
  blocks_pos : List Coord
  color : Color
  ptype : Types
  center_rot : Coord
  placed : Bool
  deriving DecidableEq, Repr

/-- The constructor of `Pytromino` in `models.py`: stores the given
block positions, color, type and rotation center, and sets `_placed` to
`False`.  (The Python default for `center_rot` is `(0, 0)`; callers of this
model pass it explicitly.) -/
def Pytromino.init (block_rel_pos : List Coord) (color : Color)
    (pytromino_type : Types) (center_rot : Coord) : Pytromino :=
  { blocks_pos := block_rel_pos
    color := color
    ptype := pytromino_type
    center_rot := center_rot
    placed := false }

/-- Method `Pytromino.rotate_block_90_cw`: rotate `pos` 90 degrees clockwise
about `_center_rot`, by the exact formula of lines 68-69 of `models.py`. -/
def Pytromino.rotate_block_90_cw (self : Pytromino) (pos : Coord) : Coord :=
  (self.center_rot.2 - pos.2 + self.center_rot.1,
   pos.1 - self.center_rot.1 + self.center_rot.2)

/-- Method `Pytromino.filter_blocks_pos`: the list comprehension
`[coord for coord in self._blocks_pos if fn(coord)]`. -/
def Pytromino.filter_blocks_pos (self : Pytromino) (fn : Coord → Bool) :
    List Coord :=
  self.blocks_pos.filter fn

/-- Static method `Pytromino.shift_down_fn`:
`lambda pos: (pos[0], pos[1] + steps)`. -/
def Pytromino.shift_down_fn (steps : ℤ) : Coord → Coord :=
  fun pos => (pos.1, pos.2 + (steps : ℚ))

/-- Static method `Pytromino.shift_left_fn`:
`lambda pos: (pos[0] - steps, pos[1])`. -/
def Pytromino.shift_left_fn (steps : ℤ) : Coord → Coord :=
  fun pos => (pos.1 - (steps : ℚ), pos.2)

/-- Static method `Pytromino.shift_right_fn`:
`lambda pos: (pos[0] + steps, pos[1])`. -/
def Pytromino.shift_right_fn (steps : ℤ) : Coord → Coord :=
  fun pos => (pos.1 + (steps : ℚ), pos.2)

/-- The loop of `validated_apply` (lines 217-223 of `models.py`): walk the
block list in order, apply `fn` to each coordinate and test the result with
`validator`; return the accumulated list on success, or `none` at the first
failing coordinate (mirroring the early `return False`). -/
def validatedApplyLoop (fn : Coord → Coord) (validator : Coord → Bool) :
    List Coord → Option (List Coord)
  | [] => some []
  | coord :: rest =>
    let pos := fn coord
    if validator pos then
      match validatedApplyLoop fn validator rest with
      | some final => some (pos :: final)
      | none => none
    else
      none

/-- Method `Pytromino.validated_apply` (lines 168-227 of `models.py`): apply
`fn` to every block coordinate, checking each result with `validator`.  On
any failure return `False` with the state untouched; on success commit the
new block list, update `_center_rot` by `fn` unless `is_rotation`, and
return `True`.  The Python defaults are `is_rotation=False` and an
always-true validator; callers of this model pass both explicitly. -/
def Pytromino.validated_apply (self : Pytromino) (fn : Coord → Coord)
    (is_rotation : Bool) (validator : Coord → Bool) : Bool × Pytromino :=
  match validatedApplyLoop fn validator self.blocks_pos with
  | none => (false, self)
  | some final_pos =>
    (true,
     { self with
        center_rot := if is_rotation then self.center_rot
                      else fn self.center_rot
        blocks_pos := final_pos })

/-- Method `Pytromino.place_at` (lines 237-261 of `models.py`): if not yet
placed, translate every block (and the rotation center) by `coordinate`
via `validated_apply` with the default always-true validator, then set
`_placed`; otherwise do nothing. -/
def Pytromino.place_at (self : Pytromino) (coordinate : Coord) : Pytromino :=
  if !self.placed then
    let r := self.validated_apply
      (fun pos => (pos.1 + coordinate.1, pos.2 + coordinate.2))
      false (fun _ => true)
    { r.2 with placed := true }
  else
    self

/-- Method `Pytromino.is_placed`. -/
def Pytromino.is_placed (self : Pytromino) : Bool :=
  self.placed

/-- Method `Pytromino.get_blocks_pos` (returns a copy; Lean lists are
immutable, so the copy is the list itself). -/
def Pytromino.get_blocks_pos (self : Pytromino) : List Coord :=
  self.blocks_pos

/-- Method `Pytromino.get_color`. -/
def Pytromino.get_color (self : Pytromino) : Color :=
  self.color

/-- Method `Pytromino.get_type`. -/
def Pytromino.get_type (self : Pytromino) : Types :=
  self.ptype

/-- Argument of `pytromino_factory`: either a member of the closed
enumeration `Pytromino.Types`, or (constructor `other`) any Python value
outside it, which falls through every `elif` to the final `else` branch. -/
inductive FactoryArg where
  | tag (t : Types)
  | other
  deriving DecidableEq, Repr

/-- Function `pytromino_factory` (lines 282-314 of `models.py`): dispatch on
the shape tag, constructing the canonical piece for each of the seven
shapes, and raise `ValueError` (modelled as `Except.error`) for any other
input. -/
def pytromino_factory : FactoryArg → Except String Pytromino
  | .tag .I =>
    .ok (Pytromino.init [(0, 0), (-1, 0), (1, 0), (2, 0)] .CYAN .I
          (1 / 2, 1 / 2))
  | .tag .O =>
    .ok (Pytromino.init [(0, 0), (0, -1), (1, -1), (1, 0)] .YELLOW .O
          (1 / 2, -(1 / 2)))
  | .tag .L =>
    .ok (Pytromino.init [(0, 0), (-1, 0), (1, 0), (1, -1)] .ORANGE .L (0, 0))
  | .tag .S =>
    .ok (Pytromino.init [(0, 0), (-1, 0), (0, -1), (1, -1)] .GREEN .S (0, 0))
  | .tag .T =>
    .ok (Pytromino.init [(0, 0), (0, -1), (-1, 0), (1, 0)] .PURPLE .T (0, 0))
  | .tag .J =>
    .ok (Pytromino.init [(0, 0), (-1, -1), (-1, 0), (1, 0)] .BLUE .J (0, 0))
  | .tag .Z =>
    .ok (Pytromino.init [(0, 0), (0, -1), (-1, -1), (1, 0)] .RED .Z (0, 0))
  | .other => .error "Unknown block type"

/-- State of a `Holder` object: fields `_item` and `_can_store`. -/
structure Holder (α : Type) where
  item : Option α
  can_store : Bool
  deriving DecidableEq, Repr

/-- The constructor of `Holder`: no item held, gate open. -/
def Holder.init (α : Type) : Holder α :=
  { item := none, can_store := true }

/-- Method `Holder.store` (lines 343-352 of `models.py`): `assert` that the
gate is open, then overwrite the item.  The result pairs the outcome of the
assertion (an `AssertionError` propagates as `Except.error`) with the state
of the object afterwards: on failure the assignment never runs, so the
state is unchanged. -/
def Holder.store {α : Type} (self : Holder α) (x : α) :
    Except String Unit × Holder α :=
  if self.can_store then
    (.ok (), { self with item := some x })
  else
    (.error "holder is closed", self)

/-- Method `Holder.open`: set `_can_store` to `True`.  (`open` is a Lean
keyword, hence the name `open_gate`.) -/
def Holder.open_gate {α : Type} (self : Holder α) : Holder α :=
  { self with can_store := true }

/-- Method `Holder.close`: set `_can_store` to `False`. -/
def Holder.close {α : Type} (self : Holder α) : Holder α :=
  { self with can_store := false }

/-- Method `Holder.get_item`: return the current item, regardless of the
gate state. -/
def Holder.get_item {α : Type} (self : Holder α) : Option α :=
  self.item

/-- Method `Holder.is_open`. -/
def Holder.is_open {α : Type} (self : Holder α) : Bool :=
  self.can_store

/-! Helper lemmas about the `validated_apply` loop. -/

/-- If every transformed coordinate passes the validator, the loop succeeds
and returns the mapped list. -/
lemma validatedApplyLoop_eq_some_of_all {fn : Coord → Coord}
    {validator : Coord → Bool} :
    ∀ {l : List Coord}, (∀ c ∈ l, validator (fn c) = true) →
      validatedApplyLoop fn validator l = some (l.map fn)
  | [], _ => rfl
  | coord :: rest, h => by
    have hc : validator (fn coord) = true := h coord (List.mem_cons_self ..)
    have hr : validatedApplyLoop fn validator rest = some (rest.map fn) :=
      validatedApplyLoop_eq_some_of_all fun c hm => h c (List.mem_cons_of_mem _ hm)
    simp [validatedApplyLoop, hc, hr]

/-- If the loop succeeds, every transformed coordinate passed the validator
and the result is the mapped list, in original order. -/
lemma validatedApplyLoop_eq_some_elim {fn : Coord → Coord}
    {validator : Coord → Bool} :
    ∀ {l r : List Coord}, validatedApplyLoop fn validator l = some r →
      (∀ c ∈ l, validator (fn c) = true) ∧ r = l.map fn := by
  intro l
  induction l with
  | nil =>
    intro r h
    simp only [validatedApplyLoop, Option.some.injEq] at h
    simpa using h.symm
  | cons coord rest ih =>
    intro r h
    simp only [validatedApplyLoop] at h
    by_cases hc : validator (fn coord) = true
    · rw [if_pos hc] at h
      cases hr : validatedApplyLoop fn validator rest with
      | none => rw [hr] at h; exact absurd h (by simp)
      | some final =>
        rw [hr] at h
        obtain ⟨hall, hmap⟩ := ih hr
        refine ⟨?_, ?_⟩
        · intro c hm
          rcases List.mem_cons.mp hm with hceq | hmem
          · exact hceq ▸ hc
          · exact hall c hmem
        · simp only [Option.some.injEq] at h
          simp [← h, hmap]
    · rw [if_neg hc] at h
      exact absurd h (by simp)

/-- Success of `validated_apply` is equivalent to every transformed block
coordinate passing the validator. -/
lemma validated_apply_fst_iff (p : Pytromino) (fn : Coord → Coord)
    (is_rotation : Bool) (validator : Coord → Bool) :
    (p.validated_apply fn is_rotation validator).1 = true ↔
      ∀ c ∈ p.blocks_pos, validator (fn c) = true := by
  constructor
  · intro h
    unfold Pytromino.validated_apply at h
    cases hl : validatedApplyLoop fn validator p.blocks_pos with
    | none => rw [hl] at h; exact absurd h (by simp)
    | some final => exact (validatedApplyLoop_eq_some_elim hl).1
  · intro h
    unfold Pytromino.validated_apply
    rw [validatedApplyLoop_eq_some_of_all h]

/-- On success, `validated_apply` commits: the new state has the mapped
block list and the center updated by `fn` unless the call is a rotation. -/
lemma validated_apply_snd_of_succ (p : Pytromino) (fn : Coord → Coord)
    (is_rotation : Bool) (validator : Coord → Bool)
    (h : (p.validated_apply fn is_rotation validator).1 = true) :
    (p.validated_apply fn is_rotation validator).2 =
      { p with
          blocks_pos := p.blocks_pos.map fn
          center_rot := if is_rotation then p.center_rot
                        else fn p.center_rot } := by
  unfold Pytromino.validated_apply at h ⊢
  cases hl : validatedApplyLoop fn validator p.blocks_pos with
  | none => rw [hl] at h; exact absurd h (by simp)
  | some final =>
    obtain ⟨-, hmap⟩ := validatedApplyLoop_eq_some_elim hl
    simp [hmap]

/-- On failure, `validated_apply` leaves the whole state untouched. -/
lemma validated_apply_snd_of_fail (p : Pytromino) (fn : Coord → Coord)
    (is_rotation : Bool) (validator : Coord → Bool)
    (h : (p.validated_apply fn is_rotation validator).1 = false) :
    (p.validated_apply fn is_rotation validator).2 = p := by
  unfold Pytromino.validated_apply at h ⊢
  cases hl : validatedApplyLoop fn validator p.blocks_pos with
  | none => rfl
  | some final => rw [hl] at h; exact absurd h (by simp)

/-- Blocks mapped over by a pointwise-inverted pair of functions return to
the original list. -/
lemma map_left_inverse {f g : Coord → Coord} (h : ∀ x, g (f x) = x) :
    ∀ l : List Coord, (l.map f).map g = l := by
  intro l
  induction l with
  | nil => rfl
  | cons a t ih => simp [h, ih]

/-- C1: for every piece, transform `fn` and validator, `validated_apply`
returns `True` and replaces `blocks` with the transformed coordinates in
original order if and only if every transformed block coordinate passes the
validator; if any fails, it returns `False` and both `blocks` and the
rotation center are exactly as before the call. -/
theorem validated_apply_atomic (p : Pytromino) (fn : Coord → Coord)
    (is_rotation : Bool) (validator : Coord → Bool) :
    ((p.validated_apply fn is_rotation validator).1 = true ↔
        ∀ c ∈ p.blocks_pos, validator (fn c) = true) ∧
    ((p.validated_apply fn is_rotation validator).1 = true →
        (p.validated_apply fn is_rotation validator).2.blocks_pos =
          p.blocks_pos.map fn) ∧
    ((p.validated_apply fn is_rotation validator).1 = false →
        (p.validated_apply fn is_rotation validator).2.blocks_pos =
            p.blocks_pos ∧
        (p.validated_apply fn is_rotation validator).2.center_rot =
            p.center_rot) := by
  refine ⟨validated_apply_fst_iff p fn is_rotation validator, ?_, ?_⟩
  · intro h
    rw [validated_apply_snd_of_succ p fn is_rotation validator h]
  · intro h
    rw [validated_apply_snd_of_fail p fn is_rotation validator h]
    exact ⟨rfl, rfl⟩

/-- Witness for C1: the T piece with a right shift and a positive-x
validator (the doctest of `validated_apply`): the call fails and the state
is unchanged. -/
theorem validated_apply_atomic_witness :
    ((Pytromino.init [(0, 0), (0, -1), (-1, 0), (1, 0)] .PURPLE .T
        (0, 0)).validated_apply (Pytromino.shift_right_fn 1) false
        (fun pos => decide (0 < pos.1))).1 = false ∧
    ((Pytromino.init [(0, 0), (0, -1), (-1, 0), (1, 0)] .PURPLE .T
        (0, 0)).validated_apply (Pytromino.shift_right_fn 1) false
        (fun pos => decide (0 < pos.1))).2.blocks_pos =
      [(0, 0), (0, -1), (-1, 0), (1, 0)] ∧
    ((Pytromino.init [(0, 0), (0, -1), (-1, 0), (1, 0)] .PURPLE .T
        (0, 0)).validated_apply (Pytromino.shift_right_fn 1) false
        (fun pos => decide (0 < pos.1))).2.center_rot = (0, 0) := by
  have h := validated_apply_atomic
    (Pytromino.init [(0, 0), (0, -1), (-1, 0), (1, 0)] .PURPLE .T (0, 0))
    (Pytromino.shift_right_fn 1) false (fun pos => decide (0 < pos.1))
  have hf : ((Pytromino.init [(0, 0), (0, -1), (-1, 0), (1, 0)] .PURPLE .T
      (0, 0)).validated_apply (Pytromino.shift_right_fn 1) false
      (fun pos => decide (0 < pos.1))).1 = false := by
    norm_num [Pytromino.validated_apply, validatedApplyLoop, Pytromino.init,
      Pytromino.shift_right_fn]
  exact ⟨hf, (h.2.2 hf).1, (h.2.2 hf).2⟩

/-- C5: `rotate_block_90_cw` returns exactly
`(c.y - p.y + c.x, p.x - c.x + c.y)` where `c` is the piece's rotation
center, including when `c` has fractional components (coordinates are
rationals throughout). -/
theorem rotate_block_90_cw_formula (p : Pytromino) (pos : Coord) :
    p.rotate_block_90_cw pos =
      (p.center_rot.2 - pos.2 + p.center_rot.1,
       pos.1 - p.center_rot.1 + p.center_rot.2) :=
  rfl

/-- C6: rotation is center-relative: `rotate_block_90_cw` applied to the
piece's own rotation center returns it unchanged, and four successive
applications to any point return that point exactly, in exact rational
arithmetic, also for fractional centers. -/
theorem rotate_center_fixed_and_order_four (p : Pytromino) (pos : Coord) :
    p.rotate_block_90_cw p.center_rot = p.center_rot ∧
    p.rotate_block_90_cw (p.rotate_block_90_cw (p.rotate_block_90_cw
      (p.rotate_block_90_cw pos))) = pos := by
  constructor
  · simp [Pytromino.rotate_block_90_cw, Prod.ext_iff]
  · simp only [Pytromino.rotate_block_90_cw, Prod.ext_iff]
    constructor <;> ring

/-- C7: on every successful `validated_apply` call, the rotation center is
unchanged when `is_rotation` is true, and equals `fn` applied to the old
center when `is_rotation` is false. -/
theorem center_rot_update (p : Pytromino) (fn : Coord → Coord)
    (is_rotation : Bool) (validator : Coord → Bool)
    (hsucc : (p.validated_apply fn is_rotation validator).1 = true) :
    (is_rotation = true →
      (p.validated_apply fn is_rotation validator).2.center_rot =
        p.center_rot) ∧
    (is_rotation = false →
      (p.validated_apply fn is_rotation validator).2.center_rot =
        fn p.center_rot) := by
  rw [validated_apply_snd_of_succ p fn is_rotation validator hsucc]
  constructor <;> intro h <;> simp [h]

/-- Witness for C7: rotating the I piece (fractional center `(1/2, 1/2)`)
with `is_rotation = true` succeeds and leaves the center unchanged. -/
theorem center_rot_update_witness :
    ((Pytromino.init [(0, 0), (-1, 0), (1, 0), (2, 0)] .CYAN .I
        (1 / 2, 1 / 2)).validated_apply
        ((Pytromino.init [(0, 0), (-1, 0), (1, 0), (2, 0)] .CYAN .I
          (1 / 2, 1 / 2)).rotate_block_90_cw) true (fun _ => true)).1 =
      true ∧
    ((Pytromino.init [(0, 0), (-1, 0), (1, 0), (2, 0)] .CYAN .I
        (1 / 2, 1 / 2)).validated_apply
        ((Pytromino.init [(0, 0), (-1, 0), (1, 0), (2, 0)] .CYAN .I
          (1 / 2, 1 / 2)).rotate_block_90_cw) true
        (fun _ => true)).2.center_rot = (1 / 2, 1 / 2) := by
  have hsucc : ((Pytromino.init [(0, 0), (-1, 0), (1, 0), (2, 0)] .CYAN .I
      (1 / 2, 1 / 2)).validated_apply
      ((Pytromino.init [(0, 0), (-1, 0), (1, 0), (2, 0)] .CYAN .I
        (1 / 2, 1 / 2)).rotate_block_90_cw) true (fun _ => true)).1 =
      true := by
    norm_num [Pytromino.validated_apply, validatedApplyLoop, Pytromino.init]
  exact ⟨hsucc,
    (center_rot_update
      (Pytromino.init [(0, 0), (-1, 0), (1, 0), (2, 0)] .CYAN .I
        (1 / 2, 1 / 2))
      ((Pytromino.init [(0, 0), (-1, 0), (1, 0), (2, 0)] .CYAN .I
        (1 / 2, 1 / 2)).rotate_block_90_cw) true (fun _ => true)
      hsucc).1 rfl⟩

/-- C10: on a successful non-rotation `validated_apply`, the new rotation
center is `fn` of the old one even when the validator rejects that very
coordinate: the validator is applied only to transformed block coordinates,
never to the transformed center. -/
theorem validator_not_applied_to_center (p : Pytromino)
    (fn : Coord → Coord) (validator : Coord → Bool)
    (hreject : validator (fn p.center_rot) = false)
    (hsucc : (p.validated_apply fn false validator).1 = true) :
    (p.validated_apply fn false validator).2.center_rot =
      fn p.center_rot := by
  rw [validated_apply_snd_of_succ p fn false validator hsucc]
  simp

/-- Witness for C10: the I piece with the identity transform and a
validator rejecting exactly the center `(1/2, 1/2)`: every (integral) block
passes, the center is rejected by the validator, yet the call succeeds and
the center is still updated by the transform. -/
theorem validator_not_applied_to_center_witness :
    ((fun pos => !(decide (pos = (((1 : ℚ) / 2, (1 : ℚ) / 2) : Coord))))
        ((fun pos => pos)
          ((Pytromino.init [(0, 0), (-1, 0), (1, 0), (2, 0)] .CYAN .I
            (1 / 2, 1 / 2)).center_rot)) = false) ∧
    ((Pytromino.init [(0, 0), (-1, 0), (1, 0), (2, 0)] .CYAN .I
        (1 / 2, 1 / 2)).validated_apply (fun pos => pos) false
        (fun pos =>
          !(decide (pos = (((1 : ℚ) / 2, (1 : ℚ) / 2) : Coord))))).1 =
      true ∧
    ((Pytromino.init [(0, 0), (-1, 0), (1, 0), (2, 0)] .CYAN .I
        (1 / 2, 1 / 2)).validated_apply (fun pos => pos) false
        (fun pos =>
          !(decide (pos = (((1 : ℚ) / 2, (1 : ℚ) / 2) : Coord))))).2.center_rot =
      (1 / 2, 1 / 2) := by
  have hreject : ((fun pos =>
      !(decide (pos = (((1 : ℚ) / 2, (1 : ℚ) / 2) : Coord))))
      ((fun pos => pos)
        ((Pytromino.init [(0, 0), (-1, 0), (1, 0), (2, 0)] .CYAN .I
          (1 / 2, 1 / 2)).center_rot)) = false) := by
    norm_num [Pytromino.init]
  have hsucc : ((Pytromino.init [(0, 0), (-1, 0), (1, 0), (2, 0)] .CYAN .I
      (1 / 2, 1 / 2)).validated_apply (fun pos => pos) false
      (fun pos =>
        !(decide (pos = (((1 : ℚ) / 2, (1 : ℚ) / 2) : Coord))))).1 =
      true := by
    norm_num [Pytromino.validated_apply, validatedApplyLoop, Pytromino.init,
      Prod.ext_iff]
  exact ⟨hreject, hsucc,
    validator_not_applied_to_center
      (Pytromino.init [(0, 0), (-1, 0), (1, 0), (2, 0)] .CYAN .I
        (1 / 2, 1 / 2)) (fun pos => pos)
      (fun pos => !(decide (pos = (((1 : ℚ) / 2, (1 : ℚ) / 2) : Coord))))
      hreject hsucc⟩

/-- A piece that is already placed is left untouched by `place_at`. -/
lemma place_at_of_placed (p : Pytromino) (c : Coord) (h : p.placed = true) :
    p.place_at c = p := by
  simp [Pytromino.place_at, h]

/-- After any `place_at` call the piece is placed. -/
lemma place_at_placed (p : Pytromino) (c : Coord) :
    (p.place_at c).placed = true := by
  unfold Pytromino.place_at
  by_cases h : p.placed <;> simp [h]

/-- C3: `place_at` on an unplaced piece translates every block and the
rotation center by its argument and sets the placed flag; on a placed piece
it is a no-op, so a second call with a different coordinate leaves the
position from the first call. -/
theorem place_at_spec (p : Pytromino) (a b : ℚ) :
    (p.placed = false →
      (p.place_at (a, b)).blocks_pos =
          p.blocks_pos.map (fun pos => (pos.1 + a, pos.2 + b)) ∧
      (p.place_at (a, b)).center_rot =
          (p.center_rot.1 + a, p.center_rot.2 + b) ∧
      (p.place_at (a, b)).placed = true) ∧
    (p.placed = true → p.place_at (a, b) = p) ∧
    (∀ c d : ℚ, (p.place_at (a, b)).place_at (c, d) = p.place_at (a, b)) := by
  refine ⟨?_, place_at_of_placed p (a, b), ?_⟩
  · intro h
    have hsucc : (p.validated_apply
        (fun pos => (pos.1 + a, pos.2 + b)) false (fun _ => true)).1 =
        true :=
      (validated_apply_fst_iff p _ false _).mpr (fun c _ => rfl)
    have hsnd := validated_apply_snd_of_succ p
      (fun pos => (pos.1 + a, pos.2 + b)) false (fun _ => true) hsucc
    simp [Pytromino.place_at, h, hsnd]
  · intro c d
    exact place_at_of_placed _ (c, d) (place_at_placed p (a, b))

/-- Witness for C3: the S piece of the factory placed at `(2, 2)` (the
doctest of `place_at`), then at `(1, 1)`: blocks and center move by the
first coordinate, the piece is placed, and the second call changes
nothing. -/
theorem place_at_spec_witness :
    ((Pytromino.init [(0, 0), (-1, 0), (0, -1), (1, -1)] .GREEN .S
        (0, 0)).place_at (2, 2)).blocks_pos =
      [(2, 2), (1, 2), (2, 1), (3, 1)] ∧
    ((Pytromino.init [(0, 0), (-1, 0), (0, -1), (1, -1)] .GREEN .S
        (0, 0)).place_at (2, 2)).center_rot = (2, 2) ∧
    ((Pytromino.init [(0, 0), (-1, 0), (0, -1), (1, -1)] .GREEN .S
        (0, 0)).place_at (2, 2)).placed = true ∧
    (((Pytromino.init [(0, 0), (-1, 0), (0, -1), (1, -1)] .GREEN .S
        (0, 0)).place_at (2, 2)).place_at (1, 1) =
      (Pytromino.init [(0, 0), (-1, 0), (0, -1), (1, -1)] .GREEN .S
        (0, 0)).place_at (2, 2)) := by
  have h := place_at_spec
    (Pytromino.init [(0, 0), (-1, 0), (0, -1), (1, -1)] .GREEN .S (0, 0))
    2 2
  obtain ⟨hblocks, hcenter, hplaced⟩ := h.1 rfl
  refine ⟨?_, ?_, hplaced, h.2.2 1 1⟩
  · rw [hblocks]
    norm_num [Pytromino.init]
  · rw [hcenter]
    norm_num [Pytromino.init]

/-- C8: applying `validated_apply` with `shift_right_fn n` and then with
`shift_left_fn n` (both non-rotations, always-true validator) returns the
piece to exactly its original blocks and rotation center. -/
theorem shift_right_left_inverse (p : Pytromino) (n : ℤ) :
    ((p.validated_apply (Pytromino.shift_right_fn n) false
        (fun _ => true)).2.validated_apply (Pytromino.shift_left_fn n)
        false (fun _ => true)).2.blocks_pos = p.blocks_pos ∧
    ((p.validated_apply (Pytromino.shift_right_fn n) false
        (fun _ => true)).2.validated_apply (Pytromino.shift_left_fn n)
        false (fun _ => true)).2.center_rot = p.center_rot := by
  have hinv : ∀ x : Coord,
      Pytromino.shift_left_fn n (Pytromino.shift_right_fn n x) = x := by
    intro x
    simp [Pytromino.shift_left_fn, Pytromino.shift_right_fn]
  have h1succ : (p.validated_apply (Pytromino.shift_right_fn n) false
      (fun _ => true)).1 = true :=
    (validated_apply_fst_iff p _ false _).mpr (fun c _ => rfl)
  have h1 := validated_apply_snd_of_succ p (Pytromino.shift_right_fn n)
    false (fun _ => true) h1succ
  have h2succ : ((p.validated_apply (Pytromino.shift_right_fn n) false
      (fun _ => true)).2.validated_apply (Pytromino.shift_left_fn n) false
      (fun _ => true)).1 = true :=
    (validated_apply_fst_iff _ _ false _).mpr (fun c _ => rfl)
  have h2 := validated_apply_snd_of_succ
    (p.validated_apply (Pytromino.shift_right_fn n) false (fun _ => true)).2
    (Pytromino.shift_left_fn n) false (fun _ => true) h2succ
  rw [h2, h1]
  constructor
  · simp only
    exact map_left_inverse hinv p.blocks_pos
  · simp [hinv]

/-- Reachability from a starting piece by any sequence of
`validated_apply` and `place_at` calls, with arbitrary transform functions
and validators. -/
inductive Reachable : Pytromino → Pytromino → Prop where
  | refl (p : Pytromino) : Reachable p p
  | vapply {p q : Pytromino} (fn : Coord → Coord) (ir : Bool)
      (v : Coord → Bool) (h : Reachable p q) :
      Reachable p (q.validated_apply fn ir v).2
  | place {p q : Pytromino} (c : Coord) (h : Reachable p q) :
      Reachable p (q.place_at c)

/-- Every `validated_apply` call preserves the number of blocks. -/
lemma validated_apply_length (p : Pytromino) (fn : Coord → Coord)
    (ir : Bool) (v : Coord → Bool) :
    (p.validated_apply fn ir v).2.blocks_pos.length =
      p.blocks_pos.length := by
  cases hb : (p.validated_apply fn ir v).1
  · rw [validated_apply_snd_of_fail p fn ir v hb]
  · rw [validated_apply_snd_of_succ p fn ir v hb]
    simp

/-- Every `place_at` call preserves the number of blocks. -/
lemma place_at_length (p : Pytromino) (c : Coord) :
    (p.place_at c).blocks_pos.length = p.blocks_pos.length := by
  unfold Pytromino.place_at
  by_cases h : p.placed <;> simp [h, validated_apply_length]

/-- Reachable states preserve the number of blocks. -/
lemma Reachable.length_eq {p q : Pytromino} (h : Reachable p q) :
    q.blocks_pos.length = p.blocks_pos.length := by
  induction h with
  | refl => rfl
  | vapply fn ir v h ih => rw [validated_apply_length, ih]
  | place c h ih => rw [place_at_length, ih]

/-- C2: every piece constructed by the factory has exactly 4 blocks in
every state reachable from it by any sequence of `validated_apply` and
`place_at` calls. -/
theorem blocks_length_invariant (t : Types) (p q : Pytromino)
    (hfac : pytromino_factory (.tag t) = .ok p) (hreach : Reachable p q) :
    q.blocks_pos.length = 4 := by
  rw [Reachable.length_eq hreach]
  cases t <;>
    simp only [pytromino_factory, Except.ok.injEq] at hfac <;>
    simp [← hfac, Pytromino.init]

/-- Witness for C2: the factory's T piece, after one right shift and one
placement, still has 4 blocks. -/
theorem blocks_length_invariant_witness :
    pytromino_factory (.tag .T) =
      .ok (Pytromino.init [(0, 0), (0, -1), (-1, 0), (1, 0)] .PURPLE .T
        (0, 0)) ∧
    ((((Pytromino.init [(0, 0), (0, -1), (-1, 0), (1, 0)] .PURPLE .T
        (0, 0)).validated_apply (Pytromino.shift_right_fn 1) false
        (fun _ => true)).2.place_at (3, 3)).blocks_pos.length = 4) :=
  ⟨rfl,
    blocks_length_invariant .T
      (Pytromino.init [(0, 0), (0, -1), (-1, 0), (1, 0)] .PURPLE .T (0, 0))
      ((((Pytromino.init [(0, 0), (0, -1), (-1, 0), (1, 0)] .PURPLE .T
        (0, 0)).validated_apply (Pytromino.shift_right_fn 1) false
        (fun _ => true)).2.place_at (3, 3)))
      rfl
      (Reachable.place (3, 3)
        (Reachable.vapply (Pytromino.shift_right_fn 1) false (fun _ => true)
          (Reachable.refl _)))⟩

/-- C4: the factory returns, for each of the seven shape tags, a newly
constructed unplaced piece with exactly the canonical block offsets, color
tag and rotation center (fractional centers for I and O only), and signals
an error for any input outside the enumeration. -/
theorem pytromino_factory_table :
    pytromino_factory (.tag .I) =
      .ok { blocks_pos := [(0, 0), (-1, 0), (1, 0), (2, 0)],
            color := .CYAN, ptype := .I, center_rot := (1 / 2, 1 / 2),
            placed := false } ∧
    pytromino_factory (.tag .O) =
      .ok { blocks_pos := [(0, 0), (0, -1), (1, -1), (1, 0)],
            color := .YELLOW, ptype := .O, center_rot := (1 / 2, -(1 / 2)),
            placed := false } ∧
    pytromino_factory (.tag .L) =
      .ok { blocks_pos := [(0, 0), (-1, 0), (1, 0), (1, -1)],
            color := .ORANGE, ptype := .L, center_rot := (0, 0),
            placed := false } ∧
    pytromino_factory (.tag .S) =
      .ok { blocks_pos := [(0, 0), (-1, 0), (0, -1), (1, -1)],
            color := .GREEN, ptype := .S, center_rot := (0, 0),
            placed := false } ∧
    pytromino_factory (.tag .T) =
      .ok { blocks_pos := [(0, 0), (0, -1), (-1, 0), (1, 0)],
            color := .PURPLE, ptype := .T, center_rot := (0, 0),
            placed := false } ∧
    pytromino_factory (.tag .J) =
      .ok { blocks_pos := [(0, 0), (-1, -1), (-1, 0), (1, 0)],
            color := .BLUE, ptype := .J, center_rot := (0, 0),
            placed := false } ∧
    pytromino_factory (.tag .Z) =
      .ok { blocks_pos := [(0, 0), (0, -1), (-1, -1), (1, 0)],
            color := .RED, ptype := .Z, center_rot := (0, 0),
            placed := false } ∧
    pytromino_factory .other = .error "Unknown block type" :=
  ⟨rfl, rfl, rfl, rfl, rfl, rfl, rfl, rfl⟩

/-- C9: `store` on a closed holder signals an error and leaves the held
item unchanged; on an open holder it overwrites the item unconditionally;
and `get_item` always returns the currently held item (`none` if never
stored) regardless of the gate state, including after `close`. -/
theorem holder_spec (α : Type) (h : Holder α) (x : α) :
    (h.is_open = false →
      (h.store x).1 = .error "holder is closed" ∧ (h.store x).2 = h) ∧
    (h.is_open = true →
      (h.store x).1 = .ok () ∧
      (h.store x).2 = { h with item := some x }) ∧
    h.get_item = h.item ∧
    h.close.get_item = h.get_item ∧
    (Holder.init α).get_item = none := by
  refine ⟨?_, ?_, rfl, rfl, rfl⟩
  · intro hc
    simp only [Holder.is_open] at hc
    simp [Holder.store, hc]
  · intro ho
    simp only [Holder.is_open] at ho
    simp [Holder.store, ho]

/-- Witness for C9: a closed holder holding `1` rejects `store 2` and
keeps its item; reopened, it accepts the store. -/
theorem holder_spec_witness :
    ((Holder.mk (some 1) false : Holder ℕ).is_open = false) ∧
    ((Holder.mk (some 1) false : Holder ℕ).store 2).1 =
      .error "holder is closed" ∧
    ((Holder.mk (some 1) false : Holder ℕ).store 2).2 =
      Holder.mk (some 1) false ∧
    ((Holder.mk (some 1) false : Holder ℕ).get_item = some 1) := by
  have hsp := holder_spec ℕ (Holder.mk (some 1) false) 2
  exact ⟨rfl, (hsp.1 rfl).1, (hsp.1 rfl).2, rfl⟩

end Pytris
